import Mathlib

/-!
Verification of the corner-classification algorithm of the tiktok-style-captions
repository. The embedding follows `applyCornerDetection` in app.js and its inline
copy in `createHTML` (playwright-example.js), together with the per-line scale
parsing in the `textEl.onchange` handler. DOM pixel quantities (offsetWidth,
tolerances, border radii) are modelled as rationals; the mutable DOM element state
of one caption line is the `Line` structure, with CSS classes as boolean flags and
an inline `style.width` as an optional rational.
-/

namespace Captions

/-- The global text alignment mode, the `data-align` attribute of the box. -/
inductive Align where
  | left
  | center
  | right
deriving DecidableEq

/-- One caption line element. `text` and `scale` come from parsing the raw input
(`textContent` and the `--font-scale` style property); `width` is the live
`offsetWidth` the algorithm reads, `cornerRadius` the pixel border radius
(`--border-radius` times font size) computed before classification. The boolean
fields model membership of the CSS classes `corner-tl`, `corner-tr`, `corner-bl`,
`corner-br`, `connect-t`, `connect-b`; `styleWidth` models the inline
`style.width` assignment (the forced width output). -/
structure Line where
  text : String
  scale : ℚ
  width : ℚ
  cornerRadius : ℚ
  cornerTL : Bool := false
  cornerTR : Bool := false
  cornerBL : Bool := false
  cornerBR : Bool := false
  connectT : Bool := false
  connectB : Bool := false
  styleWidth : Option ℚ := none
deriving DecidableEq

/-- Tolerance of a line, from the source:
`align === "center" ? borderRadius * 2 : borderRadius`. -/
def tolerance (align : Align) (radius : ℚ) : ℚ :=
  if align = Align.center then radius * 2 else radius

/-- Which of the three scenarios of `applyCornerDetection` fires for one adjacent
pair, mirroring the if / else-if / else branch structure of the source. -/
inductive PairCase where
  | A
  | B
  | C
deriving DecidableEq

/-- The Case A condition as written in the source:
`lastLine.offsetWidth - lastTolerance >= thisLine.offsetWidth + thisTolerance`. -/
abbrev caseACond (align : Align) (prev curr : Line) : Prop :=
  prev.width - tolerance align prev.cornerRadius ≥
    curr.width + tolerance align curr.cornerRadius

/-- The Case B condition as written in the source:
`lastLine.offsetWidth + lastTolerance <= thisLine.offsetWidth - thisTolerance`. -/
abbrev caseBCond (align : Align) (prev curr : Line) : Prop :=
  prev.width + tolerance align prev.cornerRadius ≤
    curr.width - tolerance align curr.cornerRadius

/-- Branch selection of `applyCornerDetection` for the pair `(lastLine, thisLine)`:
the first branch whose condition holds, in source order. -/
def classifyPair (align : Align) (prev curr : Line) : PairCase :=
  if prev.width - tolerance align prev.cornerRadius ≥
      curr.width + tolerance align curr.cornerRadius then PairCase.A
  else if prev.width + tolerance align prev.cornerRadius ≤
      curr.width - tolerance align curr.cornerRadius then PairCase.B
  else PairCase.C

/-- The body of the `applyCornerDetection` loop for one pair
`(lastLine, thisLine)`, returning the updated pair. Scenario 1 adds `corner-tl`
(unless left-aligned) and `corner-tr` (unless right-aligned) to `thisLine`;
scenario 2 adds `corner-bl` / `corner-br` to `lastLine` under the same skip rule;
scenario 3 welds: both lines get a connect class and `style.width` set to the
maximum of the two offset widths. The `width := w` updates model the live
`offsetWidth` after the `style.width` assignment; style.css is absent from the
repository snapshot, and this follows the spec's description of the forced width
as a running maximum over a welded chain read by the next pair. -/
def detectStep (align : Align) (prev curr : Line) : Line × Line :=
  if prev.width - tolerance align prev.cornerRadius ≥
      curr.width + tolerance align curr.cornerRadius then
    let c1 := if align ≠ Align.left then { curr with cornerTL := true } else curr
    let c2 := if align ≠ Align.right then { c1 with cornerTR := true } else c1
    (prev, c2)
  else if prev.width + tolerance align prev.cornerRadius ≤
      curr.width - tolerance align curr.cornerRadius then
    let p1 := if align ≠ Align.left then { prev with cornerBL := true } else prev
    let p2 := if align ≠ Align.right then { p1 with cornerBR := true } else p1
    (p2, curr)
  else
    let w := max prev.width curr.width
    ({ prev with connectB := true, width := w, styleWidth := some w },
     { curr with connectT := true, width := w, styleWidth := some w })

/-- The loop of `applyCornerDetection` from index 1 on: `prev` is the element
`lines[i-1]` carrying every mutation made so far, the list argument the remaining
elements. Each processed pair emits the final state of its first element and
carries the (possibly mutated) second element into the next iteration. -/
def detectAux (align : Align) (prev : Line) : List Line → List Line
  | [] => [prev]
  | curr :: rest =>
    let pc := detectStep align prev curr
    pc.1 :: detectAux align pc.2 rest

/-- The corner detection algorithm `applyCornerDetection`: iterates over the
line elements in order; the element with no previous sibling is skipped. -/
def applyCornerDetection (align : Align) : List Line → List Line
  | [] => []
  | first :: rest => detectAux align first rest

/-- The decoration output of one line, the DecorationResult of the spec: the four
corner-rounding flags (the `corner-tl` / `corner-tr` / `corner-bl` / `corner-br`
classes) and the optional forced width (the inline `style.width`). -/
structure Decoration where
  roundTopLeft : Bool
  roundTopRight : Bool
  roundBottomLeft : Bool
  roundBottomRight : Bool
  forcedWidth : Option ℚ
deriving DecidableEq

/-- Read off the decoration of a line element. -/
def decorationOf (l : Line) : Decoration :=
  { roundTopLeft := l.cornerTL
    roundTopRight := l.cornerTR
    roundBottomLeft := l.cornerBL
    roundBottomRight := l.cornerBR
    forcedWidth := l.styleWidth }

/-- Erase the fields the classifier never reads (`textContent` and the
`--font-scale` property), keeping the measured geometry and decoration state. -/
def stripContent (l : Line) : Line :=
  { l with text := "", scale := 1 }

/-- The first two elements of JavaScript `line.split(delim)` for a one-character
delimiter: the text before the first delimiter, and (when a delimiter occurs) the
text between the first and second delimiter. The destructuring
`let [lineText, lineScale] = lines[i].split("|")` in the source reads exactly
these two; `none` models the `undefined` second element. -/
def splitTwo (delim : Char) (cs : List Char) : List Char × Option (List Char) :=
  let first := cs.takeWhile (fun c => c ≠ delim)
  match cs.dropWhile (fun c => c ≠ delim) with
  | [] => (first, none)
  | _ :: afterDelim => (first, some (afterDelim.takeWhile (fun c => c ≠ delim)))

/-- Numeric value of a run of decimal digit characters, most significant first. -/
def digitsToNat (ds : List Char) : ℕ :=
  ds.foldl (fun acc c => acc * 10 + (c.toNat - 48)) 0

/-- A JavaScript number as returned by `parseFloat` when it is not NaN: either a
finite value or a signed infinity (`parseFloat("Infinity")`). NaN is represented
as `none` at the use sites. -/
inductive JSNum where
  | finite (val : ℚ)
  | posInf
  | negInf
deriving DecidableEq

/-- The characters the JavaScript `parseFloat` builtin skips before the number:
the StrWhiteSpace set (tab, LF, VT, FF, CR, space, NBSP, BOM and the Unicode
space-separator category) together with the LS / PS line terminators. -/
def isJSWhitespace (c : Char) : Bool :=
  c.toNat = 9 ∨ c.toNat = 10 ∨ c.toNat = 11 ∨ c.toNat = 12 ∨ c.toNat = 13 ∨
    c.toNat = 32 ∨ c.toNat = 160 ∨ c.toNat = 5760 ∨
    (8192 ≤ c.toNat ∧ c.toNat ≤ 8202) ∨ c.toNat = 8232 ∨ c.toNat = 8233 ∨
    c.toNat = 8239 ∨ c.toNat = 8287 ∨ c.toNat = 12288 ∨ c.toNat = 65279

/-- Models the JavaScript `parseFloat` builtin: skip leading JS whitespace, read
an optional sign, then either the literal `Infinity` (giving the signed infinity)
or a digit run with an optional fractional part; `none` models NaN (no digit
found). The finite value `sign * (intPart + fracPart / 10 ^ fracLen)` is
assembled as one `mkRat` call. Trailing garbage after the recognized prefix is
ignored as in JavaScript. Exponent suffixes are not modelled: they never matter
to the fallback behaviour below, since an unread exponent leaves a zero mantissa
zero and a nonzero mantissa nonzero. -/
def parseFloatChars (cs : List Char) : Option JSNum :=
  let cs1 := cs.dropWhile isJSWhitespace
  let signed : Bool × List Char :=
    match cs1 with
    | '-' :: rest => (true, rest)
    | '+' :: rest => (false, rest)
    | _ => (false, cs1)
  match signed.2 with
  | 'I' :: 'n' :: 'f' :: 'i' :: 'n' :: 'i' :: 't' :: 'y' :: _ =>
    some (if signed.1 then JSNum.negInf else JSNum.posInf)
  | _ =>
    let intPart := signed.2.takeWhile Char.isDigit
    let afterInt := signed.2.dropWhile Char.isDigit
    let fracPart :=
      match afterInt with
      | '.' :: rest => rest.takeWhile Char.isDigit
      | _ => []
    if intPart.isEmpty ∧ fracPart.isEmpty then none
    else
      let mag : ℤ :=
        (digitsToNat intPart : ℤ) * (10 : ℤ) ^ fracPart.length + (digitsToNat fracPart : ℤ)
      some (JSNum.finite (mkRat (if signed.1 then -mag else mag) ((10 : ℕ) ^ fracPart.length)))

/-- Per-line parsing of the `textEl.onchange` handler:
`let [lineText, lineScale] = lines[i].split("|"); lineScale = parseFloat(lineScale) || 1`.
The `||` keeps the parsed value unless it is falsy — NaN (parse failure, including
an absent suffix, where `parseFloat(undefined)` is NaN) or zero — in which case
the scale falls back to 1; a signed infinity is truthy and is kept. Returns the
line text and the scale. -/
def parseLine (raw : String) : String × JSNum :=
  let parts := splitTwo '|' raw.data
  let lineScale : JSNum :=
    match parts.2 with
    | none => JSNum.finite 1
    | some s =>
      match parseFloatChars s with
      | none => JSNum.finite 1
      | some v => if v = JSNum.finite 0 then JSNum.finite 1 else v
  (String.mk parts.1, lineScale)

/-! Helper lemmas. -/

theorem tolerance_nonneg (align : Align) {r : ℚ} (hr : 0 ≤ r) :
    0 ≤ tolerance align r := by
  cases align <;> simp [tolerance] <;> linarith

theorem tolerance_zero (align : Align) : tolerance align 0 = 0 := by
  cases align <;> simp [tolerance]

theorem radius_zero_of_tolerance_zero (align : Align) {r : ℚ} (hr : 0 ≤ r)
    (h : tolerance align r = 0) : r = 0 := by
  cases align <;> simp [tolerance] at h <;> linarith

/-! Claim theorems. -/

/-- C1 counterexample: with equal measured widths (10 and 10) and both corner
radii zero (hence both tolerances zero), the pair is classified as Case A, not
Case C: the non-strict `>=` of the first branch holds at equality, so the pair is
not welded. -/
theorem equal_width_zero_tolerance_goes_to_caseA :
    classifyPair Align.left
        { text := "a", scale := 1, width := 10, cornerRadius := 0 }
        { text := "b", scale := 1, width := 10, cornerRadius := 0 } = PairCase.A ∧
      classifyPair Align.left
        { text := "a", scale := 1, width := 10, cornerRadius := 0 }
        { text := "b", scale := 1, width := 10, cornerRadius := 0 } ≠ PairCase.C ∧
      (detectStep Align.left
        { text := "a", scale := 1, width := 10, cornerRadius := 0 }
        { text := "b", scale := 1, width := 10, cornerRadius := 0 }).1.connectB = false := by
  refine ⟨?_, ?_, ?_⟩ <;> norm_num +decide [classifyPair, detectStep, tolerance]

/-- C1 (amended): for every adjacent pair the classifier applies exactly one of
Case A, Case B, Case C (by branch priority); with non-negative radii the raw
Case A and Case B conditions can only hold together when both tolerances are zero
and the widths are exactly equal, and in that degenerate situation the classifier
applies Case A (the non-strict inequality of the first branch holds at equality),
not Case C. -/
theorem pairCase_unique_and_equal_zero_tolerance (align : Align) (prev curr : Line)
    (hp : 0 ≤ prev.cornerRadius) (hc : 0 ≤ curr.cornerRadius) :
    ((classifyPair align prev curr = PairCase.A ∧
        classifyPair align prev curr ≠ PairCase.B ∧
        classifyPair align prev curr ≠ PairCase.C) ∨
      (classifyPair align prev curr = PairCase.B ∧
        classifyPair align prev curr ≠ PairCase.A ∧
        classifyPair align prev curr ≠ PairCase.C) ∨
      (classifyPair align prev curr = PairCase.C ∧
        classifyPair align prev curr ≠ PairCase.A ∧
        classifyPair align prev curr ≠ PairCase.B)) ∧
    (caseACond align prev curr ∧ caseBCond align prev curr →
      prev.width = curr.width ∧ prev.cornerRadius = 0 ∧ curr.cornerRadius = 0) ∧
    (prev.width = curr.width → prev.cornerRadius = 0 → curr.cornerRadius = 0 →
      classifyPair align prev curr = PairCase.A) := by
  refine ⟨?_, ?_, ?_⟩
  · cases h : classifyPair align prev curr
    · exact Or.inl ⟨rfl, by simp, by simp⟩
    · exact Or.inr (Or.inl ⟨rfl, by simp, by simp⟩)
    · exact Or.inr (Or.inr ⟨rfl, by simp, by simp⟩)
  · rintro ⟨hA, hB⟩
    have hpt : 0 ≤ tolerance align prev.cornerRadius := tolerance_nonneg align hp
    have hct : 0 ≤ tolerance align curr.cornerRadius := tolerance_nonneg align hc
    have h1 : tolerance align prev.cornerRadius = 0 := by
      simp only [caseACond, caseBCond] at hA hB; linarith
    have h2 : tolerance align curr.cornerRadius = 0 := by
      simp only [caseACond, caseBCond] at hA hB; linarith
    refine ⟨?_, radius_zero_of_tolerance_zero align hp h1,
      radius_zero_of_tolerance_zero align hc h2⟩
    simp only [caseACond, caseBCond] at hA hB
    linarith
  · intro hw h0p h0c
    have hpt : tolerance align prev.cornerRadius = 0 := by rw [h0p]; exact tolerance_zero align
    have hct : tolerance align curr.cornerRadius = 0 := by rw [h0c]; exact tolerance_zero align
    unfold classifyPair
    rw [hpt, hct, hw, if_pos (by linarith)]

/-- C1 witness: the amended theorem applied at the (10, 10) pair with radius 0. -/
theorem pairCase_unique_and_equal_zero_tolerance_witness :
    classifyPair Align.left
        { text := "a", scale := 1, width := 10, cornerRadius := 0 }
        { text := "b", scale := 1, width := 10, cornerRadius := 0 } = PairCase.A :=
  (pairCase_unique_and_equal_zero_tolerance Align.left
      { text := "a", scale := 1, width := 10, cornerRadius := 0 }
      { text := "b", scale := 1, width := 10, cornerRadius := 0 }
      (le_refl 0) (le_refl 0)).2.2 rfl rfl rfl

/-- C2: when the Case A condition
`prev.width - prevTolerance >= curr.width + currTolerance` holds, `curr` (with no
top rounding yet) receives exactly `roundTopLeft = (align != left)` and
`roundTopRight = (align != right)`, all its other fields unchanged, and `prev`
comes out of the pair completely untouched. -/
theorem caseA_rounds_curr_top (align : Align) (prev curr : Line)
    (hA : caseACond align prev curr)
    (hTL : curr.cornerTL = false) (hTR : curr.cornerTR = false) :
    detectStep align prev curr =
      (prev, { curr with cornerTL := decide (align ≠ Align.left),
                         cornerTR := decide (align ≠ Align.right) }) := by
  obtain ⟨t, s, w, r, tl, tr, bl, br, ct, cb, sw⟩ := curr
  simp only at hTL hTR
  subst hTL hTR
  unfold detectStep
  rw [if_pos hA]
  cases align <;> rfl

/-- C2 witness: Case A at widths (10, 5), radius 2, left alignment; only the
top-right corner of the lower line is rounded. -/
theorem caseA_rounds_curr_top_witness :
    detectStep Align.left
        { text := "a", scale := 1, width := 10, cornerRadius := 2 }
        { text := "b", scale := 1, width := 5, cornerRadius := 2 } =
      ({ text := "a", scale := 1, width := 10, cornerRadius := 2 },
       { text := "b", scale := 1, width := 5, cornerRadius := 2,
         cornerTL := decide (Align.left ≠ Align.left),
         cornerTR := decide (Align.left ≠ Align.right) }) :=
  caseA_rounds_curr_top Align.left
    { text := "a", scale := 1, width := 10, cornerRadius := 2 }
    { text := "b", scale := 1, width := 5, cornerRadius := 2 }
    (by norm_num +decide [caseACond, tolerance]) rfl rfl

/-- C3 counterexample: the Case B condition
`prev.width + prevTolerance <= curr.width - currTolerance` alone does not imply
bottom rounding of `prev`: at equal widths (10, 10) with both radii zero it holds
(non-strictly), yet the Case A branch takes priority, so under center alignment
`prev` receives neither `corner-bl` nor `corner-br`, where the claim promises
both. -/
theorem caseBCond_alone_no_bottom_rounding :
    caseBCond Align.center
        { text := "a", scale := 1, width := 10, cornerRadius := 0 }
        { text := "b", scale := 1, width := 10, cornerRadius := 0 } ∧
      (detectStep Align.center
        { text := "a", scale := 1, width := 10, cornerRadius := 0 }
        { text := "b", scale := 1, width := 10, cornerRadius := 0 }).1.cornerBL = false ∧
      (detectStep Align.center
        { text := "a", scale := 1, width := 10, cornerRadius := 0 }
        { text := "b", scale := 1, width := 10, cornerRadius := 0 }).1.cornerBR = false := by
  refine ⟨?_, ?_, ?_⟩ <;> norm_num +decide [caseBCond, detectStep, tolerance]

/-- C3 (amended): when the pair is classified as Case B — the condition
`prev.width + prevTolerance <= curr.width - currTolerance` holds and the Case A
condition does not (Case A takes branch priority; the two overlap only at equal
widths with both tolerances zero) — `prev` (with no bottom rounding yet) receives
exactly `roundBottomLeft = (align != left)` and `roundBottomRight = (align !=
right)`, all its other fields unchanged, and `curr` comes out untouched. -/
theorem caseB_rounds_prev_bottom (align : Align) (prev curr : Line)
    (hB : caseBCond align prev curr) (hA : ¬ caseACond align prev curr)
    (hBL : prev.cornerBL = false) (hBR : prev.cornerBR = false) :
    detectStep align prev curr =
      ({ prev with cornerBL := decide (align ≠ Align.left),
                   cornerBR := decide (align ≠ Align.right) }, curr) := by
  obtain ⟨t, s, w, r, tl, tr, bl, br, ct, cb, sw⟩ := prev
  simp only at hBL hBR
  subst hBL hBR
  unfold detectStep
  rw [if_neg hA, if_pos hB]
  cases align <;> rfl

/-- C3 witness: Case B at widths (5, 20), radius 2, center alignment; both bottom
corners of the upper line are rounded. -/
theorem caseB_rounds_prev_bottom_witness :
    detectStep Align.center
        { text := "a", scale := 1, width := 5, cornerRadius := 2 }
        { text := "b", scale := 1, width := 20, cornerRadius := 2 } =
      ({ text := "a", scale := 1, width := 5, cornerRadius := 2,
         cornerBL := decide (Align.center ≠ Align.left),
         cornerBR := decide (Align.center ≠ Align.right) },
       { text := "b", scale := 1, width := 20, cornerRadius := 2 }) :=
  caseB_rounds_prev_bottom Align.center
    { text := "a", scale := 1, width := 5, cornerRadius := 2 }
    { text := "b", scale := 1, width := 20, cornerRadius := 2 }
    (by norm_num +decide [caseBCond, tolerance])
    (by norm_num +decide [caseACond, tolerance]) rfl rfl

/-- C4: when neither the Case A nor the Case B condition holds, both lines are
welded: each gets `forcedWidth = max(prev.width, curr.width)` (the `style.width`
assignment, which also becomes its live width), `prev` gets `connect-b`, `curr`
gets `connect-t`, and no rounded-corner flag of either line is touched by this
pair. -/
theorem caseC_welds_both (align : Align) (prev curr : Line)
    (hA : ¬ caseACond align prev curr) (hB : ¬ caseBCond align prev curr) :
    detectStep align prev curr =
      ({ prev with connectB := true, width := max prev.width curr.width,
                   styleWidth := some (max prev.width curr.width) },
       { curr with connectT := true, width := max prev.width curr.width,
                   styleWidth := some (max prev.width curr.width) }) := by
  unfold detectStep
  rw [if_neg hA, if_neg hB]

/-- C4 witness: widths (10, 8) with radius 2 are within tolerance of each other;
both lines are forced to width 10 and no corner flag is set. -/
theorem caseC_welds_both_witness :
    detectStep Align.left
        { text := "a", scale := 1, width := 10, cornerRadius := 2 }
        { text := "b", scale := 1, width := 8, cornerRadius := 2 } =
      ({ text := "a", scale := 1, width := max (10 : ℚ) 8, cornerRadius := 2,
         connectB := true, styleWidth := some (max (10 : ℚ) 8) },
       { text := "b", scale := 1, width := max (10 : ℚ) 8, cornerRadius := 2,
         connectT := true, styleWidth := some (max (10 : ℚ) 8) }) :=
  caseC_welds_both Align.left
    { text := "a", scale := 1, width := 10, cornerRadius := 2 }
    { text := "b", scale := 1, width := 8, cornerRadius := 2 }
    (by norm_num +decide [caseACond, tolerance])
    (by norm_num +decide [caseBCond, tolerance])

/-- C5 counterexample: the raw line `"Text|-2"` has a scale suffix that parses to
the negative value -2, and the resulting scale is -2, not the claimed 1.0: the
`|| 1` fallback only replaces falsy results (NaN and 0), and -2 is truthy. -/
theorem negative_scale_suffix_kept :
    (parseLine (String.mk ['T', 'e', 'x', 't', '|', '-', '2'])).2 = JSNum.finite (-2) ∧
      JSNum.finite (-2) ≠ JSNum.finite 1 := by
  refine ⟨by decide, by decide⟩

/-- C5 (amended): for every raw input line whose scale suffix is absent (no
delimiter) or fails to parse (non-numeric, so `parseFloat` returns NaN) or parses
to zero, the resulting scale is 1; the operation is total and never fails. A
suffix that parses to a truthy value — including a negative number or Infinity —
is kept as-is (`|| 1` only replaces falsy values), so "non-positive" in the claim
must weaken to "zero". -/
theorem parseLine_scale_fallback (raw : String)
    (h : ∀ s, (splitTwo '|' raw.data).2 = some s →
      parseFloatChars s = none ∨ parseFloatChars s = some (JSNum.finite 0)) :
    (parseLine raw).2 = JSNum.finite 1 := by
  unfold parseLine
  cases hs : (splitTwo '|' raw.data).2 with
  | none => simp [hs]
  | some s => rcases h s hs with h0 | h0 <;> simp [hs, h0]

/-- C5 witness: the fallback theorem applied to the non-numeric suffix
`"Text|abc"`. -/
theorem parseLine_scale_fallback_witness :
    (parseLine (String.mk ['T', 'e', 'x', 't', '|', 'a', 'b', 'c'])).2 = JSNum.finite 1 :=
  parseLine_scale_fallback (String.mk ['T', 'e', 'x', 't', '|', 'a', 'b', 'c'])
    (by
      intro s hs
      rw [(by decide :
        (splitTwo '|' (String.mk ['T', 'e', 'x', 't', '|', 'a', 'b', 'c']).data).2 =
          some ['a', 'b', 'c'])] at hs
      obtain rfl := Option.some.inj hs
      left
      decide)

/-- C6: each line's tolerance is its corner radius times 2 under center alignment
and times 1 otherwise; concretely, the pair with widths (100, 95) and radius 2 on
both lines falls into Case A under left alignment but into Case C under center
alignment, where the doubled tolerances (4 each) swallow the width difference. -/
theorem tolerance_rule_and_center_widens_band :
    (∀ (align : Align) (r : ℚ),
        tolerance align r = r * (if align = Align.center then 2 else 1)) ∧
    classifyPair Align.left
        { text := "a", scale := 1, width := 100, cornerRadius := 2 }
        { text := "b", scale := 1, width := 95, cornerRadius := 2 } = PairCase.A ∧
    classifyPair Align.center
        { text := "a", scale := 1, width := 100, cornerRadius := 2 }
        { text := "b", scale := 1, width := 95, cornerRadius := 2 } = PairCase.C := by
  refine ⟨?_, ?_, ?_⟩
  · intro align r
    cases align <;> simp +decide [tolerance]
  · norm_num +decide [classifyPair, tolerance]
  · norm_num +decide [classifyPair, tolerance]

/-- C7: the loop carries the element mutated by the previous pair into the next
pair (first conjunct: the recursion equation, where the welded or decorated
second element of the processed pair becomes the `lastLine` of the next one); and
concretely, for widths (10, 8, 5) with radius 2 under left alignment, the pair
(8, 5) would be Case C on natural widths (second conjunct), but after the weld of
(10, 8) forces line 1 to width 10, the pair (10, 5) is Case A, so line 2 gets a
rounded top-right corner instead of being welded (third conjunct). -/
theorem weld_forced_width_propagates :
    (∀ (align : Align) (prev curr : Line) (rest : List Line),
        detectAux align prev (curr :: rest) =
          (detectStep align prev curr).1 ::
            detectAux align (detectStep align prev curr).2 rest) ∧
    classifyPair Align.left
        { text := "b", scale := 1, width := 8, cornerRadius := 2 }
        { text := "c", scale := 1, width := 5, cornerRadius := 2 } = PairCase.C ∧
    applyCornerDetection Align.left
        [{ text := "a", scale := 1, width := 10, cornerRadius := 2 },
         { text := "b", scale := 1, width := 8, cornerRadius := 2 },
         { text := "c", scale := 1, width := 5, cornerRadius := 2 }] =
      [{ text := "a", scale := 1, width := 10, cornerRadius := 2, connectB := true,
         styleWidth := some 10 },
       { text := "b", scale := 1, width := 10, cornerRadius := 2, connectT := true,
         styleWidth := some 10 },
       { text := "c", scale := 1, width := 5, cornerRadius := 2, cornerTR := true }] := by
  refine ⟨fun align prev curr rest => rfl, ?_, ?_⟩
  · norm_num +decide [classifyPair, tolerance]
  · norm_num +decide [applyCornerDetection, detectAux, detectStep, tolerance]

/-- C8: a single-line caption is returned untouched by the classifier: the loop
body never runs (the only element has no previous sibling), so no corner flag and
no forced width is set. -/
theorem single_line_no_decoration (align : Align) (l : Line) :
    applyCornerDetection align [l] = [l] := rfl

theorem detectStep_strip (align : Align) (p c : Line) :
    detectStep align (stripContent p) (stripContent c) =
      (stripContent (detectStep align p c).1, stripContent (detectStep align p c).2) := by
  obtain ⟨pt, ps, pw, pr, a1, a2, a3, a4, a5, a6, a7⟩ := p
  obtain ⟨ct, cs, cw, cr, b1, b2, b3, b4, b5, b6, b7⟩ := c
  simp only [detectStep, stripContent]
  split_ifs <;> rfl

theorem detectAux_strip (align : Align) (ls : List Line) :
    ∀ prev, detectAux align (stripContent prev) (ls.map stripContent) =
      (detectAux align prev ls).map stripContent := by
  induction ls with
  | nil => intro prev; rfl
  | cons c rest ih =>
    intro prev
    simp only [List.map_cons, detectAux, detectStep_strip]
    rw [ih]

theorem applyCornerDetection_strip (align : Align) (ls : List Line) :
    applyCornerDetection align (ls.map stripContent) =
      (applyCornerDetection align ls).map stripContent := by
  cases ls with
  | nil => rfl
  | cons l rest =>
    simp only [List.map_cons, applyCornerDetection]
    exact detectAux_strip align rest l

theorem decorationOf_strip (l : Line) :
    decorationOf (stripContent l) = decorationOf l := rfl

/-- C9: one classification pass is a pure, deterministic function of the measured
line sequence and alignment: two input sequences that agree on everything the
classifier reads (all fields except the text content and font scale) produce
identical per-line DecorationResult sequences, and running the pass twice on the
same input trivially gives the same output. -/
theorem classification_depends_only_on_measured_input (align : Align)
    (l1 l2 : List Line) (h : l1.map stripContent = l2.map stripContent) :
    (applyCornerDetection align l1).map decorationOf =
      (applyCornerDetection align l2).map decorationOf ∧
    applyCornerDetection align l1 = applyCornerDetection align l1 := by
  refine ⟨?_, rfl⟩
  have key : ∀ X : List Line,
      (X.map stripContent).map decorationOf = X.map decorationOf := by
    intro X
    rw [List.map_map]
    simp [Function.comp_def, decorationOf_strip]
  calc (applyCornerDetection align l1).map decorationOf
      = ((applyCornerDetection align l1).map stripContent).map decorationOf :=
        (key _).symm
    _ = (applyCornerDetection align (l1.map stripContent)).map decorationOf := by
        rw [applyCornerDetection_strip]
    _ = (applyCornerDetection align (l2.map stripContent)).map decorationOf := by
        rw [h]
    _ = ((applyCornerDetection align l2).map stripContent).map decorationOf := by
        rw [applyCornerDetection_strip]
    _ = (applyCornerDetection align l2).map decorationOf := key _

/-- C9 witness: two single-line inputs with different text and scale but the same
measured geometry classify to the same decorations. -/
theorem classification_depends_only_on_measured_input_witness :
    (applyCornerDetection Align.left
        [{ text := "x", scale := 1, width := 10, cornerRadius := 2 }]).map decorationOf =
      (applyCornerDetection Align.left
        [{ text := "y", scale := 3, width := 10, cornerRadius := 2 }]).map decorationOf :=
  (classification_depends_only_on_measured_input Align.left
      [{ text := "x", scale := 1, width := 10, cornerRadius := 2 }]
      [{ text := "y", scale := 3, width := 10, cornerRadius := 2 }]
      (by decide)).1

theorem detectStep_text_fst (align : Align) (p c : Line) :
    (detectStep align p c).1.text = p.text := by
  simp only [detectStep]
  split_ifs <;> rfl

theorem detectStep_scale_fst (align : Align) (p c : Line) :
    (detectStep align p c).1.scale = p.scale := by
  simp only [detectStep]
  split_ifs <;> rfl

theorem detectStep_text_snd (align : Align) (p c : Line) :
    (detectStep align p c).2.text = c.text := by
  simp only [detectStep]
  split_ifs <;> rfl

theorem detectStep_scale_snd (align : Align) (p c : Line) :
    (detectStep align p c).2.scale = c.scale := by
  simp only [detectStep]
  split_ifs <;> rfl

theorem detectAux_text_scale (align : Align) (ls : List Line) :
    ∀ prev, (detectAux align prev ls).map (fun l => (l.text, l.scale)) =
      (prev.text, prev.scale) :: ls.map (fun l => (l.text, l.scale)) := by
  induction ls with
  | nil => intro prev; rfl
  | cons c rest ih =>
    intro prev
    simp only [detectAux, List.map_cons, ih, detectStep_text_fst, detectStep_scale_fst,
      detectStep_text_snd, detectStep_scale_snd]

/-- C10: the classifier never changes any line's text or scale: after a pass,
the per-line sequence of (text, scale) pairs is exactly that of the input; only
corner flags, connect flags and the forced width are written. -/
theorem classification_preserves_text_and_scale (align : Align) (ls : List Line) :
    (applyCornerDetection align ls).map (fun l => (l.text, l.scale)) =
      ls.map (fun l => (l.text, l.scale)) := by
  cases ls with
  | nil => rfl
  | cons l rest =>
    simp only [applyCornerDetection, List.map_cons]
    exact detectAux_text_scale align rest l

end Captions
